import Mathlib

/-!
# OCLint driver (`oclint-driver/main.cpp`)

A shallow embedding of the driver's orchestration code: rule and reporter
plugin loading, `--rc` override parsing, output stream handling, the compiler
diagnostics sections and the threshold verdict, followed by theorems about
them.

Conventions of the embedding

* `std::string` is a list of `char`s (`Str`).
* `size_t` is a natural number below `2 ^ 64`, `int` is an integer in the
  32 bit signed range; conversions between them wrap explicitly.
* Functions with side effects return the list of `Event`s they cause, in
  order, next to their `Result`.
* A C++ exception is a value `Exn`; every exception of the model derives from
  `std::exception`, as `GenericException` and `std::out_of_range` do.
* The collaborators whose code is outside `main.cpp` (the file system,
  `dlopen`, the rule registry, the analysis driver, the reporters) are fields
  of `Env`.
-/

namespace Oclint

/-- A `std::string`: its sequence of `char`s. -/
abbrev Str := List Char

/-! ## Machine integers -/

/-- The value `std::string::npos`, the largest `size_t`. -/
def npos : Nat := 2 ^ 64 - 1

/-- Conversion of a `size_t` to `int`: reduce modulo `2 ^ 32` and read the
result as a signed 32 bit number. -/
def toInt (n : Nat) : Int :=
  if n % 2 ^ 32 < 2 ^ 31 then ((n % 2 ^ 32 : Nat) : Int)
  else ((n % 2 ^ 32 : Nat) : Int) - 2 ^ 32

/-- Conversion of an `int` to `size_t`: reduce modulo `2 ^ 64`. -/
def toSizeT (i : Int) : Nat := (i % 2 ^ 64).toNat

/-- Subtraction of two `size_t` values, wrapping modulo `2 ^ 64`. -/
def subSizeT (a b : Nat) : Nat := (a % 2 ^ 64 + (2 ^ 64 - b % 2 ^ 64)) % 2 ^ 64

/-! ## Exceptions and results -/

/-- The exceptions raised in the driver. -/
inductive Exn where
  /-- An `oclint::GenericException` with its message. -/
  | GenericException (msg : Str)
  /-- A `std::out_of_range` raised by `std::string::at` or `substr`. -/
  | out_of_range
  /-- An exception raised by a collaborator (analysis driver, reporter). -/
  | external (what : Str)
  deriving DecidableEq, Repr

/-- How a call ends: it returns a value, it throws, or its behaviour is
undefined (a call through a null function pointer). -/
inductive Result (α : Type) where
  | ok (a : α)
  | throw (e : Exn)
  | undefined
  deriving DecidableEq, Repr

/-! ## `std::string` operations -/

/-- Index of the last element of `s` that occurs in `chars`, if there is one. -/
def lastIndexOf (chars : Str) : Str → Option Nat
  | [] => none
  | c :: cs =>
    match lastIndexOf chars cs with
    | some i => some (i + 1)
    | none => if c ∈ chars then some 0 else none

/-- The call `s.find_last_of(chars)`: the index of the last character of `s`
that is one of `chars`, or `npos`. -/
def find_last_of (s chars : Str) : Nat :=
  match lastIndexOf chars s with
  | some i => i
  | none => npos

/-- The call `s.substr(pos, count)`: throws `std::out_of_range` when
`pos > s.size()`, otherwise the characters `[pos, min(pos + count, size))`. -/
def substr (s : Str) (pos count : Nat) : Result Str :=
  if pos > s.length then .throw .out_of_range
  else .ok ((s.drop pos).take count)

/-! ## Rule configuration overrides -/

/-- The body of the loop of `consumeRuleConfigurations` up to the call of
`addConfiguration`: the key and the value computed from one override. -/
def splitConfiguration (configuration : Str) : Result (Str × Str) :=
  let indexOfSeparator : Int := toInt (find_last_of configuration ['='])
  match substr configuration 0 (toSizeT indexOfSeparator) with
  | .throw e => .throw e
  | .undefined => .undefined
  | .ok key =>
    match substr configuration (toSizeT (indexOfSeparator + 1))
        (subSizeT (subSizeT configuration.length (toSizeT indexOfSeparator)) 1) with
    | .throw e => .throw e
    | .undefined => .undefined
    | .ok value => .ok (key, value)

/-! ## Collaborators and observable events -/

/-- The part of `oclint::Violation` the driver reads. -/
structure Violation where
  path : Str
  startLine : Int
  startColumn : Int
  message : Str
  deriving DecidableEq, Repr

/-- The `oclint::ViolationSet` as the driver sees it: `getViolations()`, whose
length is `numberOfViolations()`. -/
abbrev ViolationSet := List Violation

/-- The `oclint::Results` aggregate as the driver sees it: the count of
violations of a priority. -/
structure Results where
  numberOfViolationsWithPriority : Int → Int

/-- An `oclint::Reporter`: its `name()` and its `report(results, out)`, which
yields the text it writes to `out` and the exception it ends with, if any. -/
structure Reporter where
  name : Str
  report : Results → Str × Option Exn

/-- A handle returned by `dlopen`; `create` is what `dlsym(handle, "create")`
resolves to (`none` for a null pointer). -/
structure Module where
  create : Option Reporter

/-- The streams `outStream` returns. -/
inductive Stream where
  | cout
  | ofstream (path : Str)
  deriving DecidableEq, Repr

/-- The argument of `printErrorLine`: a string literal or `e.what()`. -/
inductive ErrorMessage where
  | literal (text : Str)
  | what (e : Exn)
  deriving DecidableEq, Repr

/-- The observable actions of a run, recorded in order. -/
inductive Event where
  /-- The call `dlopen(path, RTLD_LAZY)`. -/
  | dlopen (path : Str)
  /-- The statement `cerr << dlerror() << endl`. -/
  | dlerror (text : Str)
  /-- The call of the factory `create` of the module loaded from `path`. -/
  | create (path : Str)
  /-- The call `RuleConfiguration::addConfiguration(key, value)`. -/
  | addConfiguration (key value : Str)
  /-- The call `printErrorLine(errorMessage)`. -/
  | printErrorLine (errorMessage : ErrorMessage)
  /-- The construction `new ofstream(path)` and whether the file opened. -/
  | ofstream (path : Str) (is_open : Bool)
  /-- The text one call writes to the report stream, possibly none. -/
  | write (out : Stream) (text : Str)
  /-- The call `close()` on the report stream. -/
  | close (out : Stream)
  /-- The call `driver.run(...)`. -/
  | run
  deriving DecidableEq, Repr

/-- The exit codes, in the order of the `enum`. -/
inductive ExitCode where
  | SUCCESS
  | RULE_NOT_FOUND
  | REPORTER_NOT_FOUND
  | ERROR_WHILE_PROCESSING
  | ERROR_WHILE_REPORTING
  | VIOLATIONS_EXCEED_THRESHOLD
  deriving DecidableEq, Repr

/-- The integer value of an exit code. -/
def ExitCode.toInt : ExitCode → Int
  | .SUCCESS => 0
  | .RULE_NOT_FOUND => 1
  | .REPORTER_NOT_FOUND => 2
  | .ERROR_WHILE_PROCESSING => 3
  | .ERROR_WHILE_REPORTING => 4
  | .VIOLATIONS_EXCEED_THRESHOLD => 5

/-- The command line options after parsing and the collaborators of a run. -/
structure Env where
  /-- Option `-o`. -/
  argOutput : Str
  /-- Option `--report-type`. -/
  argReportType : Str
  /-- Option `-R`, in command line order. -/
  argRulesPath : List Str
  /-- Option `--rc`, in command line order. -/
  argRuleConfiguration : List Str
  /-- Option `--max-priority-1`. -/
  argMaxP1 : Int
  /-- Option `--max-priority-2`. -/
  argMaxP2 : Int
  /-- Option `--max-priority-3`. -/
  argMaxP3 : Int
  /-- The value of `getExecutablePath(argv[0])`. -/
  exeStrPath : Str
  /-- The entry names `readdir` enumerates in a directory, `none` when
  `opendir` returns null. -/
  opendir : Str → Option (List Str)
  /-- The call `dlopen(path, RTLD_LAZY)`: the handle, or the `dlerror` text. -/
  dlopen : Str → Except Str Module
  /-- The value of `RuleSet::numberOfRules()` once the modules at the given
  paths have been loaded in this order. -/
  numberOfRules : List Str → Int
  /-- The working directory `getcwd` reports, `none` when it fails. -/
  cwd : Option Str
  /-- The call `driver.run(...)`: the `Results` singleton and the error and
  warning sets it fills, or the exception it throws. -/
  run : Except Exn (Results × ViolationSet × ViolationSet)
  /-- Whether `ofstream(path)` opens the file. -/
  canOpen : Str → Bool

/-- The file scope variables `absoluteWorkingPath` and `selectedReporter`. -/
structure Globals where
  absoluteWorkingPath : Str := []
  selectedReporter : Option Reporter := none

/-! ## Start-up -/

/-- The function `preserveWorkingPath`: `getcwd(path, 300)` succeeds when the
working directory and its terminator fit in 300 bytes. -/
def preserveWorkingPath (env : Env) (g : Globals) : Globals :=
  match env.cwd with
  | some path => if path.length + 1 ≤ 300 then { g with absoluteWorkingPath := path } else g
  | none => g

/-- The `while` loop of `dynamicLoadRules` over the remaining entries; returns
the paths loaded. -/
def dynamicLoadRulesLoop (env : Env) (ruleDirPath : Str) :
    List Str → List Event × Result (List Str)
  | [] => ([], .ok [])
  | d_name :: rest =>
    if d_name.head? = some '.' then dynamicLoadRulesLoop env ruleDirPath rest
    else
      let rulePath := ruleDirPath ++ "/".toList ++ d_name
      match env.dlopen rulePath with
      | .error text =>
        ([.dlopen rulePath, .dlerror text],
          .throw (.GenericException ("cannot open dynamic library: ".toList ++ rulePath)))
      | .ok _ =>
        match dynamicLoadRulesLoop env ruleDirPath rest with
        | (t, .ok loaded) => (.dlopen rulePath :: t, .ok (rulePath :: loaded))
        | (t, r) => (.dlopen rulePath :: t, r)

/-- The function `dynamicLoadRules`. -/
def dynamicLoadRules (env : Env) (ruleDirPath : Str) : List Event × Result (List Str) :=
  match env.opendir ruleDirPath with
  | some names => dynamicLoadRulesLoop env ruleDirPath names
  | none => ([], .ok [])

/-- The `for` loop of `consumeArgRulesPath` over the remaining directories. -/
def consumeArgRulesPathLoop (env : Env) : List Str → List Event × Result (List Str)
  | [] => ([], .ok [])
  | dir :: rest =>
    match dynamicLoadRules env dir with
    | (t, .ok loaded) =>
      match consumeArgRulesPathLoop env rest with
      | (t', .ok loaded') => (t ++ t', .ok (loaded ++ loaded'))
      | (t', r) => (t ++ t', r)
    | (t, r) => (t, r)

/-- The function `consumeArgRulesPath`; returns the paths of the rule modules
loaded. -/
def consumeArgRulesPath (env : Env) : List Event × Result (List Str) :=
  if env.argRulesPath.length = 0 then
    dynamicLoadRules env (env.exeStrPath ++ "/../lib/oclint/rules".toList)
  else consumeArgRulesPathLoop env env.argRulesPath

/-- The function `consumeRuleConfigurations` over the remaining overrides. -/
def consumeRuleConfigurations : List Str → List Event × Result Unit
  | [] => ([], .ok ())
  | configuration :: rest =>
    match splitConfiguration configuration with
    | .ok (key, value) =>
      let (t, r) := consumeRuleConfigurations rest
      (.addConfiguration key value :: t, r)
    | .throw e => ([], .throw e)
    | .undefined => ([], .undefined)

/-- The `while` loop of `loadReporter` over the remaining entries; returns the
value of `selectedReporter` when the loop is left. -/
def loadReporterLoop (env : Env) (defaultReportersPath : Str) :
    List Str → List Event × Result (Option Reporter)
  | [] => ([], .ok none)
  | d_name :: rest =>
    if d_name.head? = some '.' then loadReporterLoop env defaultReportersPath rest
    else
      let reporterPath := defaultReportersPath ++ "/".toList ++ d_name
      match env.dlopen reporterPath with
      | .error text =>
        ([.dlopen reporterPath, .dlerror text],
          .throw (.GenericException ("cannot open dynamic library: ".toList ++ reporterPath)))
      | .ok reporterHandle =>
        match reporterHandle.create with
        | none => ([.dlopen reporterPath], .undefined)
        | some reporter =>
          if reporter.name = env.argReportType then
            ([.dlopen reporterPath, .create reporterPath], .ok (some reporter))
          else
            let (t, r) := loadReporterLoop env defaultReportersPath rest
            (.dlopen reporterPath :: .create reporterPath :: t, r)

/-- The function `loadReporter`; returns the new value of `selectedReporter`. -/
def loadReporter (env : Env) : List Event × Result Reporter :=
  let defaultReportersPath := env.exeStrPath ++ "/../lib/oclint/reporters".toList
  let (t, r) :=
    match env.opendir defaultReportersPath with
    | some names => loadReporterLoop env defaultReportersPath names
    | none => ([], .ok none)
  match r with
  | .ok (some reporter) => (t, .ok reporter)
  | .ok none =>
    (t, .throw (.GenericException
      ("cannot find dynamic library for report type: ".toList ++ env.argReportType)))
  | .throw e => (t, .throw e)
  | .undefined => (t, .undefined)

/-! ## Verdict, output stream, diagnostics -/

/-- The function `numberOfViolationsExceedThreshold`. -/
def numberOfViolationsExceedThreshold (env : Env) (results : Results) : Bool :=
  decide (results.numberOfViolationsWithPriority 1 > env.argMaxP1) ||
  decide (results.numberOfViolationsWithPriority 2 > env.argMaxP2) ||
  decide (results.numberOfViolationsWithPriority 3 > env.argMaxP3)

/-- The function `outStream`. -/
def outStream (env : Env) (g : Globals) : List Event × Result Stream :=
  if env.argOutput = "-".toList then ([], .ok .cout)
  else
    match env.argOutput.head? with
    | none => ([], .throw .out_of_range)
    | some c =>
      let absoluteOutputPath :=
        if c = '/' then env.argOutput else g.absoluteWorkingPath ++ "/".toList ++ env.argOutput
      if env.canOpen absoluteOutputPath then
        ([.ofstream absoluteOutputPath true], .ok (.ofstream absoluteOutputPath))
      else
        ([.ofstream absoluteOutputPath false],
          .throw (.GenericException ("cannot open report output file ".toList ++ env.argOutput)))

/-- The function `disposeOutStream`; `out` is `none` for a null pointer. -/
def disposeOutStream (env : Env) (out : Option Stream) : List Event :=
  match out with
  | some s => if env.argOutput ≠ "-".toList then [.close s] else []
  | none => []

/-- The text `out << n` writes for an `int`. -/
def decimal (n : Int) : Str := (toString n).toList

/-- The text `endl` writes. -/
def endl : Str := ['\n']

/-- The two statements of the loop body of `printCompilerDiagnostics`. -/
def violationLine (violation : Violation) : Str :=
  violation.path ++ ":".toList ++ decimal violation.startLine ++ ":".toList ++
    decimal violation.startColumn ++ ": ".toList ++ violation.message ++ endl

/-- The function `printCompilerDiagnostics`: the text it writes to `out`. -/
def printCompilerDiagnostics (violationSet : ViolationSet) (headerText : Str) : Str :=
  if violationSet.length > 0 then
    endl ++ headerText ++ endl ++ endl ++
      (violationSet.map violationLine).flatten ++ endl
  else []

/-! ## `prepare` and `main` -/

/-- The function `prepare`: its status and the file scope variables it leaves.
An exception that leaves `prepare` is not caught by `main` either. -/
def prepare (env : Env) : List Event × Result (ExitCode × Globals) :=
  match consumeArgRulesPath env with
  | (t₁, .throw e) => (t₁ ++ [.printErrorLine (.what e)], .ok (.RULE_NOT_FOUND, {}))
  | (t₁, .undefined) => (t₁, .undefined)
  | (t₁, .ok loaded) =>
    if env.numberOfRules loaded ≤ 0 then
      (t₁ ++ [.printErrorLine (.literal "no rule loaded".toList)], .ok (.RULE_NOT_FOUND, {}))
    else
      match loadReporter env with
      | (t₂, .throw e) =>
        (t₁ ++ t₂ ++ [.printErrorLine (.what e)], .ok (.REPORTER_NOT_FOUND, {}))
      | (t₂, .undefined) => (t₁ ++ t₂, .undefined)
      | (t₂, .ok reporter) =>
        match consumeRuleConfigurations env.argRuleConfiguration with
        | (t₃, .throw e) => (t₁ ++ t₂ ++ t₃, .throw e)
        | (t₃, .undefined) => (t₁ ++ t₂ ++ t₃, .undefined)
        | (t₃, .ok ()) =>
          (t₁ ++ t₂ ++ t₃,
            .ok (.SUCCESS, preserveWorkingPath env { selectedReporter := some reporter }))

/-- The header of the compiler errors section. -/
def compilerErrorsHeader : Str :=
  ("Compiler Errors:\n(please aware that these errors" ++
    " will precent OCLint from analyzing those source code)").toList

/-- The header of the compiler warnings section. -/
def compilerWarningsHeader : Str := "Compiler Warnings:".toList

/-- The last `try` block of `main` and the verdict after it. -/
def reportAndJudge (env : Env) (g : Globals) (results : Results)
    (errorSet warningSet : ViolationSet) : List Event × Result ExitCode :=
  match outStream env g with
  | (t, .throw e) => (t ++ [.printErrorLine (.what e)], .ok .ERROR_WHILE_REPORTING)
  | (t, .undefined) => (t, .undefined)
  | (t, .ok out) =>
    let t' := t ++ [.write out (printCompilerDiagnostics errorSet compilerErrorsHeader),
      .write out (printCompilerDiagnostics warningSet compilerWarningsHeader)]
    match g.selectedReporter with
    | none => (t', .undefined)
    | some reporter =>
      match reporter.report results with
      | (text, some e) =>
        (t' ++ [.write out text, .printErrorLine (.what e)], .ok .ERROR_WHILE_REPORTING)
      | (text, none) =>
        (t' ++ [.write out text] ++ disposeOutStream env (some out),
          .ok (if numberOfViolationsExceedThreshold env results
            then .VIOLATIONS_EXCEED_THRESHOLD else .SUCCESS))

/-- The function `main` after the command line has been parsed: the events of
the run and how it ends (`throw` for an exception nobody catches). -/
def main (env : Env) : List Event × Result ExitCode :=
  match prepare env with
  | (t, .throw e) => (t, .throw e)
  | (t, .undefined) => (t, .undefined)
  | (t, .ok (prepareStatus, g)) =>
    if prepareStatus ≠ .SUCCESS then (t, .ok prepareStatus)
    else
      match env.run with
      | .error e => (t ++ [.run, .printErrorLine (.what e)], .ok .ERROR_WHILE_PROCESSING)
      | .ok (results, errorSet, warningSet) =>
        let (t', r) := reportAndJudge env g results errorSet warningSet
        (t ++ .run :: t', r)

/-! ## Auxiliary notions used in the statements -/

/-- Whether the loading loops look at a directory entry: its name does not
start with a dot. -/
def visible (d_name : Str) : Bool := decide (d_name.head? ≠ some '.')

/-- The reporter the factory of the module at `dir/d_name` creates, when the
module loads and exposes the factory. -/
def reporterAt (env : Env) (dir d_name : Str) : Option Reporter :=
  match env.dlopen (dir ++ "/".toList ++ d_name) with
  | .ok reporterHandle => reporterHandle.create
  | .error _ => none

/-- Whether the module at `dir/d_name` creates a reporter whose name is the
requested report type. -/
def declares (env : Env) (dir d_name : Str) : Bool :=
  match reporterAt env dir d_name with
  | some reporter => decide (reporter.name = env.argReportType)
  | none => false

/-- The directory `loadReporter` scans. -/
def reportersPath (env : Env) : Str := env.exeStrPath ++ "/../lib/oclint/reporters".toList

/-- The events `loadReporter` causes for one entry it loads. -/
def loadEvents (dir d_name : Str) : List Event :=
  [.dlopen (dir ++ "/".toList ++ d_name), .create (dir ++ "/".toList ++ d_name)]

/-- The text of one violation of a diagnostics section, without its `endl`. -/
def formatted (violation : Violation) : Str :=
  violation.path ++ ":".toList ++ decimal violation.startLine ++ ":".toList ++
    decimal violation.startColumn ++ ": ".toList ++ violation.message

/-- Whether an event is a `close()` of the report stream. -/
def Event.isClose : Event → Bool
  | .close _ => true
  | _ => false

/-! ## Concrete runs -/

/-- A run with the default options in an empty installation. -/
def defaultEnv : Env where
  argOutput := "-".toList
  argReportType := "text".toList
  argRulesPath := []
  argRuleConfiguration := []
  argMaxP1 := 0
  argMaxP2 := 10
  argMaxP3 := 20
  exeStrPath := "/usr/bin".toList
  opendir := fun _ => none
  dlopen := fun _ => .error "not found".toList
  numberOfRules := fun loaded => loaded.length
  cwd := some "/home/u".toList
  run := .ok (⟨fun _ => 0⟩, [], [])
  canOpen := fun _ => true

/-- Counts equal to the default thresholds, and seven violations in every
other band. -/
def resultsAtThreshold : Results :=
  ⟨fun priority => if priority = 1 then 0 else if priority = 2 then 10
    else if priority = 3 then 20 else 7⟩

/-- The default run with an empty destination, as after `-o ""`. -/
def emptyOutputEnv : Env := { defaultEnv with argOutput := [] }

/-- The default run with the destination `report.txt`. -/
def relativeOutputEnv : Env := { defaultEnv with argOutput := "report.txt".toList }

/-- A compiler warning at `a.c:3:7`. -/
def warningA : Violation := ⟨"a.c".toList, 3, 7, "unused variable".toList⟩

/-- A compiler warning at `b.c:12:1`. -/
def warningB : Violation := ⟨"b.c".toList, 12, 1, "implicit conversion".toList⟩

/-- A reporter named `text` whose `report` writes a summary. -/
def textReporter : Reporter := ⟨"text".toList, fun _ => ("Summary\n".toList, none)⟩

/-- A reporter named `text` whose `report` throws after a partial write. -/
def failingReporter : Reporter :=
  ⟨"text".toList, fun _ => ("Summ".toList, some (.external "report failed".toList))⟩

/-- A reporter named `html`. -/
def htmlReporter : Reporter := ⟨"html".toList, fun _ => ("<html></html>\n".toList, none)⟩

/-- An installation under `/usr` with one rule module and two reporter modules,
enumerated `libTextReporter.so` first; the first creates `reporter`, the
second `htmlReporter`. -/
def installedEnv (reporter : Reporter) : Env :=
  { defaultEnv with
    opendir := fun dir =>
      if dir = "/usr/bin/../lib/oclint/rules".toList then
        some [".".toList, "..".toList, "libRule.so".toList]
      else if dir = "/usr/bin/../lib/oclint/reporters".toList then
        some [".".toList, "..".toList, "libTextReporter.so".toList, "libHTMLReporter.so".toList]
      else none
    dlopen := fun path =>
      if path = "/usr/bin/../lib/oclint/rules/libRule.so".toList then .ok ⟨none⟩
      else if path = "/usr/bin/../lib/oclint/reporters/libTextReporter.so".toList then
        .ok ⟨some reporter⟩
      else if path = "/usr/bin/../lib/oclint/reporters/libHTMLReporter.so".toList then
        .ok ⟨some htmlReporter⟩
      else .error "image not found".toList }

/-- The installed run writing to `report.txt`, with the given `text` reporter. -/
def fileEnv (reporter : Reporter) : Env :=
  { installedEnv reporter with argOutput := "report.txt".toList }

/-! # Theorems -/

set_option maxRecDepth 100000

/-! ## Strings and overrides -/

theorem lastIndexOf_none (chars : Str) (s : Str) :
    lastIndexOf chars s = none ↔ ∀ c ∈ s, c ∉ chars := by
  induction s with
  | nil => simp [lastIndexOf]
  | cons c cs ih =>
    cases h : lastIndexOf chars cs with
    | none =>
      have h' := ih.mp h
      by_cases hc : c ∈ chars
      · simp [lastIndexOf, h, hc]
      · simp only [lastIndexOf, h, hc, if_false, true_iff]
        intro d hd
        rcases List.mem_cons.mp hd with rfl | hd
        · exact hc
        · exact h' d hd
    | some i =>
      simp only [lastIndexOf, h]
      refine ⟨fun hh => (by cases hh), fun hall => ?_⟩
      exfalso
      have : lastIndexOf chars cs = none := ih.mpr (fun d hd => hall d (List.mem_cons_of_mem _ hd))
      rw [h] at this
      cases this

theorem lastIndexOf_some (chars : Str) (s : Str) (i : Nat) (h : lastIndexOf chars s = some i) :
    i < s.length ∧ (∃ c ∈ chars, s = s.take i ++ c :: s.drop (i + 1)) ∧
      ∀ d ∈ s.drop (i + 1), d ∉ chars := by
  induction s generalizing i with
  | nil => simp [lastIndexOf] at h
  | cons c cs ih =>
    cases h' : lastIndexOf chars cs with
    | none =>
      by_cases hc : c ∈ chars
      · simp only [lastIndexOf, h', hc, if_true, Option.some.injEq] at h
        subst h
        refine ⟨by simp, ⟨c, hc, by simp⟩, ?_⟩
        simpa using (lastIndexOf_none chars cs).mp h'
      · simp [lastIndexOf, h', hc] at h
    | some j =>
      simp only [lastIndexOf, h', Option.some.injEq] at h
      subst h
      obtain ⟨h1, ⟨d, hd, h2⟩, h3⟩ := ih j h'
      refine ⟨by simpa using h1, ⟨d, hd, ?_⟩, by simpa using h3⟩
      simp only [List.take_succ_cons, List.drop_succ_cons, List.cons_append, List.cons.injEq, true_and]
      exact h2

theorem splitConfiguration_of_lastIndexOf (s : Str) (i : Nat) (hlen : s.length < 2 ^ 31)
    (h : lastIndexOf ['='] s = some i) :
    splitConfiguration s = .ok (s.take i, s.drop (i + 1)) := by
  obtain ⟨hi, -, -⟩ := lastIndexOf_some _ _ _ h
  have e1 : toInt i = (i : Int) := by
    unfold toInt
    have : i % 2 ^ 32 = i := Nat.mod_eq_of_lt (by omega)
    rw [this, if_pos (by omega)]
  have e2 : toSizeT (i : Int) = i := by
    unfold toSizeT
    omega
  have e3 : toSizeT ((i : Int) + 1) = i + 1 := by
    unfold toSizeT
    omega
  have e4 : subSizeT (subSizeT s.length i) 1 = s.length - i - 1 := by
    unfold subSizeT
    omega
  simp only [splitConfiguration, find_last_of, h, e1, e2, e3, e4, substr]
  rw [if_neg (by omega), if_neg (by omega)]
  simp only [List.drop_zero]
  rw [List.take_of_length_le (l := List.drop (i + 1) s) (by rw [List.length_drop]; omega)]

theorem splitConfiguration_of_not_mem (s : Str) (hlen : s.length < 2 ^ 64)
    (h : '=' ∉ s) : splitConfiguration s = .ok (s, s) := by
  have hn : lastIndexOf ['='] s = none :=
    (lastIndexOf_none _ _).mpr (fun c hc hmem => by
      rw [List.mem_singleton] at hmem
      exact h (hmem ▸ hc))
  have e1 : toInt npos = -1 := by decide
  have e2 : toSizeT (-1) = 2 ^ 64 - 1 := by decide
  have e3 : toSizeT (-1 + 1) = 0 := by decide
  have e4 : subSizeT (subSizeT s.length (2 ^ 64 - 1)) 1 = s.length := by
    unfold subSizeT
    omega
  simp only [splitConfiguration, find_last_of, hn, e1, e2, e3, e4, substr]
  rw [if_neg (by omega), if_neg (by omega)]
  simp only [List.drop_zero]
  rw [List.take_of_length_le (by omega), List.take_of_length_le (by omega)]


/-! ## C1: the verdict -/

/-- C1: `numberOfViolationsExceedThreshold` returns true exactly when the count
of priority 1, 2 or 3 is strictly greater than its threshold; it returns false
when the three counts equal the thresholds; and two `Results` that agree on the
priorities 1, 2 and 3 get the same verdict, whatever their other bands hold. -/
theorem numberOfViolationsExceedThreshold_iff (env : Env) (results : Results) :
    (numberOfViolationsExceedThreshold env results = true ↔
      results.numberOfViolationsWithPriority 1 > env.argMaxP1 ∨
      results.numberOfViolationsWithPriority 2 > env.argMaxP2 ∨
      results.numberOfViolationsWithPriority 3 > env.argMaxP3) ∧
    (results.numberOfViolationsWithPriority 1 = env.argMaxP1 →
      results.numberOfViolationsWithPriority 2 = env.argMaxP2 →
      results.numberOfViolationsWithPriority 3 = env.argMaxP3 →
      numberOfViolationsExceedThreshold env results = false) ∧
    (∀ other : Results,
      other.numberOfViolationsWithPriority 1 = results.numberOfViolationsWithPriority 1 →
      other.numberOfViolationsWithPriority 2 = results.numberOfViolationsWithPriority 2 →
      other.numberOfViolationsWithPriority 3 = results.numberOfViolationsWithPriority 3 →
      numberOfViolationsExceedThreshold env other =
        numberOfViolationsExceedThreshold env results) := by
  refine ⟨?_, ?_, ?_⟩
  · simp [numberOfViolationsExceedThreshold, or_assoc]
  · intro h1 h2 h3
    simp [numberOfViolationsExceedThreshold, h1, h2, h3]
  · intro other h1 h2 h3
    simp [numberOfViolationsExceedThreshold, h1, h2, h3]

/-- C1 at the default thresholds 0, 10, 20 with counts 0, 10, 20 and seven
violations in every other band: not exceeded. -/
theorem numberOfViolationsExceedThreshold_iff_witness :
    numberOfViolationsExceedThreshold defaultEnv resultsAtThreshold = false :=
  (numberOfViolationsExceedThreshold_iff defaultEnv resultsAtThreshold).2.1
    (by decide) (by decide) (by decide)

/-! ## C3, C4, C5: `--rc` overrides -/

/-- C3 as the code has it: for an override that contains `=` (and whose length
fits an `int`), `consumeRuleConfigurations` makes one call
`addConfiguration(key, value)` where the override is `key`, `=`, `value` and
`value` contains no `=`: the key is the text before the last `=`. -/
theorem consumeRuleConfigurations_key_before_last_separator (s : Str)
    (hmem : '=' ∈ s) (hlen : s.length < 2 ^ 31) :
    ∃ key value, consumeRuleConfigurations [s] = ([.addConfiguration key value], .ok ()) ∧
      s = key ++ '=' :: value ∧ '=' ∉ value := by
  cases h : lastIndexOf ['='] s with
  | none =>
    exact absurd (List.mem_singleton.mpr rfl) ((lastIndexOf_none _ _).mp h _ hmem)
  | some i =>
    obtain ⟨-, ⟨c, hc, hs⟩, hrest⟩ := lastIndexOf_some _ _ _ h
    rw [List.mem_singleton] at hc
    subst hc
    refine ⟨s.take i, s.drop (i + 1), ?_, hs, fun hv => hrest _ hv (List.mem_singleton.mpr rfl)⟩
    simp [consumeRuleConfigurations, splitConfiguration_of_lastIndexOf s i hlen h]

/-- C3 at `A=B=C`: some key and value are stored that spell the override. -/
theorem consumeRuleConfigurations_key_before_last_separator_witness :
    ∃ key value, consumeRuleConfigurations ["A=B=C".toList] =
        ([.addConfiguration key value], .ok ()) ∧
      "A=B=C".toList = key ++ '=' :: value ∧ '=' ∉ value :=
  consumeRuleConfigurations_key_before_last_separator "A=B=C".toList (by decide) (by decide)

/-- C3 fails as stated: for `FOO=BAR=BAZ` the stored key is `FOO=BAR` and the
stored value is `BAZ`, not `FOO` and `BAR=BAZ`. -/
theorem consumeRuleConfigurations_first_separator_counterexample :
    consumeRuleConfigurations ["FOO=BAR=BAZ".toList] =
        ([.addConfiguration "FOO=BAR".toList "BAZ".toList], .ok ()) ∧
      consumeRuleConfigurations ["FOO=BAR=BAZ".toList] ≠
        ([.addConfiguration "FOO".toList "BAR=BAZ".toList], .ok ()) := by
  decide

/-- C4: for every command line of overrides (each of a length that fits an
`int`), whether or not all of them contain `=`, `consumeRuleConfigurations`
succeeds and makes exactly one `addConfiguration` call per override, in command
line order; and for every override that contains `=` the key and the value of
its call are such that `key + "=" + value` is the override and the value
contains no `=`. -/
theorem consumeRuleConfigurations_split_last (args : List Str)
    (h : ∀ s ∈ args, s.length < 2 ^ 31) :
    ∃ calls : List (Str × Str),
      consumeRuleConfigurations args =
        (calls.map (fun kv => Event.addConfiguration kv.1 kv.2), .ok ()) ∧
      List.Forall₂
        (fun s kv => '=' ∈ s → kv.1 ++ "=".toList ++ kv.2 = s ∧ '=' ∉ kv.2) args calls := by
  induction args with
  | nil => exact ⟨[], rfl, List.Forall₂.nil⟩
  | cons s rest ih =>
    obtain ⟨calls, hcalls, hall⟩ := ih (fun t ht => h t (List.mem_cons_of_mem _ ht))
    have hlen := h s (List.mem_cons_self _ _)
    cases hi : lastIndexOf ['='] s with
    | none =>
      have hnot : '=' ∉ s := fun hmem =>
        absurd (List.mem_singleton.mpr rfl) ((lastIndexOf_none _ _).mp hi _ hmem)
      refine ⟨(s, s) :: calls, ?_, List.Forall₂.cons (fun hmem => absurd hmem hnot) hall⟩
      simp [consumeRuleConfigurations,
        splitConfiguration_of_not_mem s (lt_trans hlen (by norm_num)) hnot, hcalls]
    | some i =>
      obtain ⟨-, ⟨c, hc, hs⟩, hrest⟩ := lastIndexOf_some _ _ _ hi
      rw [List.mem_singleton] at hc
      subst hc
      refine ⟨(s.take i, s.drop (i + 1)) :: calls, ?_,
        List.Forall₂.cons (fun _ => ⟨?_, ?_⟩) hall⟩
      · simp [consumeRuleConfigurations, splitConfiguration_of_lastIndexOf s i hlen hi, hcalls]
      · simpa using hs.symm
      · exact fun hv => hrest _ hv (List.mem_singleton.mpr rfl)

/-- C4 at the overrides `FOO`, `a=b`, `c=d=e`, the first of which has no `=`:
three calls in order, the last two split at the last `=`. -/
theorem consumeRuleConfigurations_split_last_witness :
    ∃ calls : List (Str × Str),
      consumeRuleConfigurations ["FOO".toList, "a=b".toList, "c=d=e".toList] =
        (calls.map (fun kv => Event.addConfiguration kv.1 kv.2), .ok ()) ∧
      List.Forall₂
        (fun s kv => '=' ∈ s → kv.1 ++ "=".toList ++ kv.2 = s ∧ '=' ∉ kv.2)
        ["FOO".toList, "a=b".toList, "c=d=e".toList] calls :=
  consumeRuleConfigurations_split_last ["FOO".toList, "a=b".toList, "c=d=e".toList]
    (by decide)

/-- C5 as the code has it: for an override without `=` (of a length a `size_t`
holds), `consumeRuleConfigurations` does not fail and makes one call
`addConfiguration(s, s)`: the whole string is the key and also the value. -/
theorem consumeRuleConfigurations_without_separator (s : Str)
    (hmem : '=' ∉ s) (hlen : s.length < 2 ^ 64) :
    consumeRuleConfigurations [s] = ([.addConfiguration s s], .ok ()) := by
  simp [consumeRuleConfigurations, splitConfiguration_of_not_mem s hlen hmem]

/-- C5 at the override `verbose`: the key is `verbose` and so is the value. -/
theorem consumeRuleConfigurations_without_separator_witness :
    consumeRuleConfigurations ["verbose".toList] =
      ([.addConfiguration "verbose".toList "verbose".toList], .ok ()) :=
  consumeRuleConfigurations_without_separator "verbose".toList (by decide) (by decide)

/-- C5 fails as stated: for the override `FOO` the value passed is `FOO`, not
the empty string. -/
theorem consumeRuleConfigurations_empty_value_counterexample :
    consumeRuleConfigurations ["FOO".toList] =
        ([.addConfiguration "FOO".toList "FOO".toList], .ok ()) ∧
      consumeRuleConfigurations ["FOO".toList] ≠
        ([.addConfiguration "FOO".toList []], .ok ()) := by
  decide

/-! ## C6: the report destination -/

/-- C6 as the code has it: for the token `-`, `outStream` returns standard
output and opens nothing; for the empty token it throws `std::out_of_range`
and opens nothing; for a token that starts with another character than `/` the
one file it opens is the captured working directory, `/`, token; for a token
that starts with `/` the one file it opens is the token unchanged. In the last
two cases it returns the file stream when the file opens and throws "cannot
open report output file " followed by the token when it does not. -/
theorem outStream_resolution (env : Env) (g : Globals) :
    (env.argOutput = "-".toList → outStream env g = ([], .ok .cout)) ∧
    (env.argOutput = [] → outStream env g = ([], .throw .out_of_range)) ∧
    (∀ c rest, env.argOutput = c :: rest → env.argOutput ≠ "-".toList → c ≠ '/' →
      outStream env g =
        if env.canOpen (g.absoluteWorkingPath ++ "/".toList ++ env.argOutput) then
          ([.ofstream (g.absoluteWorkingPath ++ "/".toList ++ env.argOutput) true],
            .ok (.ofstream (g.absoluteWorkingPath ++ "/".toList ++ env.argOutput)))
        else
          ([.ofstream (g.absoluteWorkingPath ++ "/".toList ++ env.argOutput) false],
            .throw (.GenericException
              ("cannot open report output file ".toList ++ env.argOutput)))) ∧
    (∀ rest, env.argOutput = '/' :: rest →
      outStream env g =
        if env.canOpen env.argOutput then
          ([.ofstream env.argOutput true], .ok (.ofstream env.argOutput))
        else
          ([.ofstream env.argOutput false],
            .throw (.GenericException
              ("cannot open report output file ".toList ++ env.argOutput)))) := by
  refine ⟨?_, ?_, ?_, ?_⟩
  · intro h
    simp [outStream, h]
  · intro h
    simp [outStream, h]
  · intro c rest h hne hc
    unfold outStream
    rw [if_neg hne]
    simp only [h, List.head?_cons, if_neg hc]
  · intro rest h
    have hne : env.argOutput ≠ "-".toList := by
      rw [h]
      intro hh
      exact absurd (List.cons.inj hh).1 (by decide)
    unfold outStream
    rw [if_neg hne]
    simp only [h, List.head?_cons, if_true]

/-- C6 at the token `report.txt` with the working directory `/home/u` captured
by `preserveWorkingPath`: the file opened is `/home/u/report.txt`. -/
theorem outStream_resolution_witness :
    outStream relativeOutputEnv (preserveWorkingPath relativeOutputEnv {}) =
      ([.ofstream "/home/u/report.txt".toList true],
        .ok (.ofstream "/home/u/report.txt".toList)) :=
  ((outStream_resolution relativeOutputEnv (preserveWorkingPath relativeOutputEnv {})).2.2.1
    'r' "eport.txt".toList (by decide) (by decide) (by decide)).trans (by decide)

/-- C6 fails as stated: the empty token is not `-` and does not start with `/`,
yet `outStream` opens no file for it, it throws `std::out_of_range`. -/
theorem outStream_empty_token_counterexample :
    emptyOutputEnv.argOutput ≠ "-".toList ∧ emptyOutputEnv.argOutput.head? ≠ some '/' ∧
      outStream emptyOutputEnv (preserveWorkingPath emptyOutputEnv {}) =
        ([], .throw .out_of_range) := by
  decide

/-! ## C7: the diagnostics sections -/

/-- C7 as the code has it: `printCompilerDiagnostics` writes nothing for an
empty set, and for a non-empty set it writes exactly these lines, each ended by
a newline: an empty line, the header, an empty line, one line
`path:startLine:startColumn: message` per violation in the order of the set,
and an empty line. -/
theorem printCompilerDiagnostics_lines (violationSet : ViolationSet) (headerText : Str) :
    (violationSet = [] → printCompilerDiagnostics violationSet headerText = []) ∧
    (violationSet ≠ [] → printCompilerDiagnostics violationSet headerText =
      (([] :: headerText :: [] :: violationSet.map formatted ++ [[]]).map
        (fun line => line ++ ['\n'])).flatten) := by
  constructor
  · intro h
    simp [printCompilerDiagnostics, h]
  · intro h
    have hpos : violationSet.length > 0 := List.length_pos.mpr h
    have hmap : (violationSet.map violationLine) =
        (violationSet.map formatted).map (fun line => line ++ ['\n']) := by
      simp [violationLine, formatted, endl, Function.comp_def]
    simp [printCompilerDiagnostics, hpos, hmap, endl]

/-- C7 at a set of two warnings under the warnings header. -/
theorem printCompilerDiagnostics_lines_witness :
    printCompilerDiagnostics [warningA, warningB] compilerWarningsHeader =
      ("\nCompiler Warnings:\n\na.c:3:7: unused variable\n" ++
        "b.c:12:1: implicit conversion\n\n").toList :=
  ((printCompilerDiagnostics_lines [warningA, warningB] compilerWarningsHeader).2
    (by decide)).trans (by decide)

/-- C7 fails as stated: the text written for a non-empty set starts with a
newline, before the header. -/
theorem printCompilerDiagnostics_leading_newline_counterexample :
    printCompilerDiagnostics [warningA] compilerWarningsHeader =
        "\nCompiler Warnings:\n\na.c:3:7: unused variable\n\n".toList ∧
      printCompilerDiagnostics [warningA] compilerWarningsHeader ≠
        "Compiler Warnings:\n\na.c:3:7: unused variable\n\n".toList := by
  decide

/-! ## Plugin loading -/

theorem loadReporterLoop_result (env : Env) (dir : Str) (names : List Str)
    (hall : ∀ n ∈ names, visible n = true → (reporterAt env dir n).isSome = true) :
    (loadReporterLoop env dir names).2 =
      .ok (((names.filter visible).find? (declares env dir)).bind (reporterAt env dir)) := by
  induction names with
  | nil => simp [loadReporterLoop]
  | cons n rest ih =>
    have ih' := ih (fun k hk => hall k (List.mem_cons_of_mem _ hk))
    unfold loadReporterLoop
    by_cases hdot : n.head? = some '.'
    · rw [if_pos hdot]
      have hv : visible n = false := by simp [visible, hdot]
      simpa [List.filter_cons, hv] using ih'
    · rw [if_neg hdot]
      have hv : visible n = true := by simp [visible, hdot]
      have hsome := hall n (List.mem_cons_self _ _) hv
      cases hopen : env.dlopen (dir ++ "/".toList ++ n) with
      | error text =>
        simp only [reporterAt, hopen] at hsome
        cases hsome
      | ok m =>
        simp only [hopen]
        cases hcreate : m.create with
        | none =>
          simp only [reporterAt, hopen, hcreate] at hsome
          cases hsome
        | some reporter =>
          have hat : reporterAt env dir n = some reporter := by
            simp only [reporterAt, hopen, hcreate]
          simp only []
          by_cases hname : reporter.name = env.argReportType
          · rw [if_pos hname]
            have hd : declares env dir n = true := by simp [declares, hat, hname]
            simp [List.filter_cons, hv, List.find?_cons, hd, hat]
          · rw [if_neg hname]
            have hd : declares env dir n = false := by simp [declares, hat, hname]
            simpa [List.filter_cons, hv, List.find?_cons, hd] using ih'

theorem loadReporterLoop_events (env : Env) (dir : Str) (names : List Str)
    (hall : ∀ n ∈ names, visible n = true → (reporterAt env dir n).isSome = true) :
    (loadReporterLoop env dir names).1 =
      ((((names.filter visible).takeWhile (fun n => !declares env dir n)) ++
        ((names.filter visible).find? (declares env dir)).toList).map (loadEvents dir)).flatten := by
  induction names with
  | nil => simp [loadReporterLoop]
  | cons n rest ih =>
    have ih' := ih (fun k hk => hall k (List.mem_cons_of_mem _ hk))
    unfold loadReporterLoop
    by_cases hdot : n.head? = some '.'
    · rw [if_pos hdot]
      have hv : visible n = false := by simp [visible, hdot]
      simpa [List.filter_cons, hv] using ih'
    · rw [if_neg hdot]
      have hv : visible n = true := by simp [visible, hdot]
      have hsome := hall n (List.mem_cons_self _ _) hv
      cases hopen : env.dlopen (dir ++ "/".toList ++ n) with
      | error text =>
        simp only [reporterAt, hopen] at hsome
        cases hsome
      | ok m =>
        simp only [hopen]
        cases hcreate : m.create with
        | none =>
          simp only [reporterAt, hopen, hcreate] at hsome
          cases hsome
        | some reporter =>
          have hat : reporterAt env dir n = some reporter := by
            simp only [reporterAt, hopen, hcreate]
          simp only []
          by_cases hname : reporter.name = env.argReportType
          · rw [if_pos hname]
            have hd : declares env dir n = true := by simp [declares, hat, hname]
            simp [List.filter_cons, hv, List.find?_cons, List.takeWhile_cons, hd, loadEvents]
          · rw [if_neg hname]
            have hd : declares env dir n = false := by simp [declares, hat, hname]
            simp only [List.filter_cons, hv, if_true, List.find?_cons, List.takeWhile_cons, hd,
              Bool.not_false, List.cons_append, List.map_cons, List.flatten_cons]
            rw [ih']
            simp [loadEvents]

theorem loadReporter_of_dir (env : Env) (names : List Str)
    (hdir : env.opendir (reportersPath env) = some names) :
    (loadReporter env).1 = (loadReporterLoop env (reportersPath env) names).1 ∧
    (loadReporter env).2 =
      match (loadReporterLoop env (reportersPath env) names).2 with
      | .ok (some reporter) => .ok reporter
      | .ok none => .throw (.GenericException
          ("cannot find dynamic library for report type: ".toList ++ env.argReportType))
      | .throw e => .throw e
      | .undefined => .undefined := by
  unfold reportersPath at hdir
  unfold loadReporter
  simp only [hdir]
  unfold reportersPath
  rcases loadReporterLoop env (env.exeStrPath ++ "/../lib/oclint/reporters".toList) names
    with ⟨t, r⟩
  rcases r with (_ | _) | _ | _ <;> exact ⟨rfl, rfl⟩

/-- C8 at a run with `-o report.txt` whose reporter throws in `report`: `main`
returns `ERROR_WHILE_REPORTING`, the file `/home/u/report.txt` has been opened
and the run contains no `close()`; the same run with a reporter that returns
closes the file once. -/
theorem main_report_failure_skips_close :
    (main (fileEnv failingReporter)).2 = .ok .ERROR_WHILE_REPORTING ∧
      Event.ofstream "/home/u/report.txt".toList true ∈ (main (fileEnv failingReporter)).1 ∧
      (main (fileEnv failingReporter)).1.filter Event.isClose = [] ∧
      (main (fileEnv textReporter)).1.filter Event.isClose =
        [.close (.ofstream "/home/u/report.txt".toList)] := by
  decide

/-! ## C9, C10: reporter loading and selection -/

/-- C9 as the code has it: when every entry of the reporters directory whose
name does not start with a dot loads and exposes `create`, `loadReporter` loads
and calls `create` for those entries in enumeration order up to and including
the first one that declares the requested report type, and for no entry after
it; without such an entry it does so for all of them. -/
theorem loadReporter_loads_until_first_match (env : Env) (names : List Str)
    (hdir : env.opendir (reportersPath env) = some names)
    (hall : ∀ n ∈ names, visible n = true → (reporterAt env (reportersPath env) n).isSome = true) :
    (loadReporter env).1 =
      ((((names.filter visible).takeWhile (fun n => !declares env (reportersPath env) n)) ++
        ((names.filter visible).find? (declares env (reportersPath env))).toList).map
          (loadEvents (reportersPath env))).flatten := by
  rw [(loadReporter_of_dir env names hdir).1]
  exact loadReporterLoop_events env _ names hall

/-- C9 at the directory `.`, `..`, `libTextReporter.so`, `libHTMLReporter.so`
with the report type `html`: both modules are loaded. -/
theorem loadReporter_loads_until_first_match_witness :
    (loadReporter { installedEnv textReporter with argReportType := "html".toList }).1 =
      [.dlopen "/usr/bin/../lib/oclint/reporters/libTextReporter.so".toList,
        .create "/usr/bin/../lib/oclint/reporters/libTextReporter.so".toList,
        .dlopen "/usr/bin/../lib/oclint/reporters/libHTMLReporter.so".toList,
        .create "/usr/bin/../lib/oclint/reporters/libHTMLReporter.so".toList] :=
  (loadReporter_loads_until_first_match
    { installedEnv textReporter with argReportType := "html".toList }
    [".".toList, "..".toList, "libTextReporter.so".toList, "libHTMLReporter.so".toList]
    (by decide) (by decide)).trans (by decide)

/-- C9 fails as stated: with the report type `text`, the entry
`libHTMLReporter.so`, enumerated after the matching `libTextReporter.so`, does
not start with a dot and would load, yet it is never loaded. -/
theorem loadReporter_early_exit_counterexample :
    visible "libHTMLReporter.so".toList = true ∧
      (reporterAt (installedEnv textReporter) (reportersPath (installedEnv textReporter))
        "libHTMLReporter.so".toList).isSome = true ∧
      (loadReporter (installedEnv textReporter)).1 =
        [.dlopen "/usr/bin/../lib/oclint/reporters/libTextReporter.so".toList,
          .create "/usr/bin/../lib/oclint/reporters/libTextReporter.so".toList] ∧
      Event.dlopen "/usr/bin/../lib/oclint/reporters/libHTMLReporter.so".toList ∉
        (loadReporter (installedEnv textReporter)).1 := by
  decide

/-- C10: when every entry of the reporters directory whose name does not start
with a dot loads and exposes `create`: if some such entry declares the
requested report type, `loadReporter` succeeds and returns the reporter created
from the first such entry in enumeration order; if none does, `loadReporter`
throws "cannot find dynamic library for report type: " followed by the type.
The result holds one reporter at most by its type. -/
theorem loadReporter_selects_first_match (env : Env) (names : List Str)
    (hdir : env.opendir (reportersPath env) = some names)
    (hall : ∀ n ∈ names, visible n = true → (reporterAt env (reportersPath env) n).isSome = true) :
    ((∃ n ∈ names, visible n = true ∧ declares env (reportersPath env) n = true) →
      ∃ first reporter,
        (names.filter visible).find? (declares env (reportersPath env)) = some first ∧
        reporterAt env (reportersPath env) first = some reporter ∧
        reporter.name = env.argReportType ∧ (loadReporter env).2 = .ok reporter) ∧
    ((∀ n ∈ names, visible n = true → declares env (reportersPath env) n = false) →
      (loadReporter env).2 = .throw (.GenericException
        ("cannot find dynamic library for report type: ".toList ++ env.argReportType))) := by
  have hres := loadReporterLoop_result env (reportersPath env) names hall
  have h2 := (loadReporter_of_dir env names hdir).2
  rw [hres] at h2
  constructor
  · rintro ⟨k, hk, hkv, hkd⟩
    cases hn : (names.filter visible).find? (declares env (reportersPath env)) with
    | none =>
      rw [List.find?_eq_none] at hn
      exact absurd hkd (hn k (List.mem_filter.mpr ⟨hk, hkv⟩))
    | some n =>
      have hd : declares env (reportersPath env) n = true := List.find?_some hn
      cases hat : reporterAt env (reportersPath env) n with
      | none => simp [declares, hat] at hd
      | some reporter =>
        refine ⟨n, reporter, rfl, hat, ?_, ?_⟩
        · simpa [declares, hat] using hd
        · rw [h2, hn]
          simp only [Option.bind, hat]
  · intro hno
    have hfind : (names.filter visible).find? (declares env (reportersPath env)) = none := by
      rw [List.find?_eq_none]
      intro n hn
      have := List.mem_filter.mp hn
      simp [hno n this.1 this.2]
    rw [h2, hfind]
    rfl

/-- C10 at the directory `.`, `..`, `libTextReporter.so`, `libHTMLReporter.so`
with the report type `text`: the reporter of `libTextReporter.so` is selected. -/
theorem loadReporter_selects_first_match_witness :
    ∃ first reporter,
      ([".".toList, "..".toList, "libTextReporter.so".toList,
        "libHTMLReporter.so".toList].filter visible).find?
          (declares (installedEnv textReporter) (reportersPath (installedEnv textReporter))) =
        some first ∧
      reporterAt (installedEnv textReporter) (reportersPath (installedEnv textReporter)) first =
        some reporter ∧
      reporter.name = (installedEnv textReporter).argReportType ∧
      (loadReporter (installedEnv textReporter)).2 = .ok reporter :=
  (loadReporter_selects_first_match (installedEnv textReporter)
    [".".toList, "..".toList, "libTextReporter.so".toList, "libHTMLReporter.so".toList]
    (by decide) (by decide)).1
    ⟨"libTextReporter.so".toList, by decide, by decide, by decide⟩

end Oclint
